import Mathlib

/-!
Verification of the EcoDev repository's duplicate checker
(`check_uniqueness.py`) and batch-file writer (`send_batch.py`).

The Python code is shallowly embedded: lists of hashable items become
`List α` with `DecidableEq α`, Python `set`s become `Finset α`, and the
observable behaviour of each function (returned report, printed lines,
process exit status, file on disk) is made an explicit value.
-/

namespace EcoDev

variable {α : Type} [DecidableEq α]

/-- One step of the detailed scan in `check_list_uniqueness`
(`src/check_uniqueness.py`, lines 14-18): given the pair
`(seen, duplicates)`, an item already in `seen` is added to `duplicates`,
otherwise it is added to `seen`. -/
def scanStep (sd : Finset α × Finset α) (item : α) : Finset α × Finset α :=
  if item ∈ sd.1 then (sd.1, insert item sd.2) else (insert item sd.1, sd.2)

/-- The `duplicates` set produced by the seen/duplicates loop of
`check_list_uniqueness`, starting from two empty sets. -/
def duplicatesOf (items : List α) : Finset α :=
  (items.foldl scanStep (∅, ∅)).2

/-- The Duplicate Report computed by `check_list_uniqueness`
(`src/check_uniqueness.py`, lines 4-20): the verdict is the fast
set-size comparison `len(items) == len(set(items))`; when it fails, the
detailed scan supplies the duplicate set, otherwise the set is empty. -/
def check (items : List α) : Bool × Finset α :=
  if items.length = items.toFinset.card then (true, ∅)
  else (false, duplicatesOf items)

/-- A line printed by `check_list_uniqueness`.  The final line of the
non-unique branch prints `list(duplicates)`, whose element order is
unspecified in Python, so the printed collection is kept as a `Finset`. -/
inductive OutLine (α : Type) where
  | uniqueMsg : OutLine α
  | dupMsg : OutLine α
  | dupList : Finset α → OutLine α
deriving DecidableEq

/-- The full observable behaviour of `check_list_uniqueness`
(`src/check_uniqueness.py`, lines 4-20): the Python function returns
`None` and communicates only by printing; its trace of printed lines, in
order, is the value modelled here. -/
def check_list_uniqueness (items : List α) : List (OutLine α) :=
  if items.length = items.toFinset.card then
    [OutLine.uniqueMsg]
  else
    [OutLine.dupMsg, OutLine.dupList (duplicatesOf items)]

/-- The detailed scan described by the spec's own words ("walk the
sequence once, maintaining a seen set; any value already in seen is added
to a duplicates set"), run unconditionally: the report's verdict is
simply whether the scanned duplicate set is empty.  Used to compare the
source's two-step strategy against the spec's always-scan strategy. -/
def checkAlwaysScan (items : List α) : Bool × Finset α :=
  (decide (duplicatesOf items = ∅), duplicatesOf items)

/-- The key invariant of the seen/duplicates loop: folding `scanStep`
over `l` from state `(s, d)` yields seen-set `s ∪ l.toFinset` and
duplicate-set `d` together with every value of `l` that was already in
`s` or occurs at least twice in `l`. -/
theorem foldl_scanStep_eq (l : List α) (s d : Finset α) :
    l.foldl scanStep (s, d) =
      (s ∪ l.toFinset,
       d ∪ l.toFinset.filter (fun x => x ∈ s ∨ 2 ≤ l.count x)) := by
  induction l generalizing s d with
  | nil => simp
  | cons a t ih =>
    rw [List.foldl_cons]
    by_cases ha : a ∈ s
    · rw [show scanStep (s, d) a = (s, insert a d) by simp [scanStep, ha], ih]
      refine Prod.ext ?_ ?_
      · simp only
        ext x
        by_cases hxa : x = a <;>
          simp [hxa, ha, List.mem_toFinset]
      · simp only
        ext x
        by_cases hxa : x = a
        · subst hxa
          simp [ha, List.count_cons]
        · have hc : List.count x (a :: t) = List.count x t := by
            simp [List.count_cons, Ne.symm hxa]
          simp only [Finset.mem_union, Finset.mem_insert, Finset.mem_filter,
            List.mem_toFinset, List.mem_cons, hc, hxa, false_or]
    · rw [show scanStep (s, d) a = (insert a s, d) by simp [scanStep, ha], ih]
      refine Prod.ext ?_ ?_
      · simp only
        ext x
        by_cases hxa : x = a <;> simp [hxa]
      · simp only
        ext x
        by_cases hxa : x = a
        · subst hxa
          have hcnt : (2 ≤ t.count x + 1) ↔ x ∈ t := by
            rw [← List.count_pos_iff]
            omega
          simp [ha, List.count_cons, hcnt, List.mem_toFinset]
        · have hc : List.count x (a :: t) = List.count x t := by
            simp [List.count_cons, Ne.symm hxa]
          simp only [Finset.mem_union, Finset.mem_filter, Finset.mem_insert,
            List.mem_toFinset, List.mem_cons, hc, hxa, false_or]

/-- The duplicate set of the scan is exactly the set of values of
multiplicity at least 2. -/
theorem duplicatesOf_eq (l : List α) :
    duplicatesOf l = l.toFinset.filter (fun x => 2 ≤ l.count x) := by
  rw [duplicatesOf, foldl_scanStep_eq]
  simp

/-- `len(items) == len(set(items))` holds exactly when the list has no
repeated element. -/
theorem length_eq_card_iff_nodup (l : List α) :
    l.length = l.toFinset.card ↔ l.Nodup := by
  rw [List.card_toFinset]
  constructor
  · intro h
    have hd : l.dedup = l := (l.dedup_sublist).eq_of_length h.symm
    rw [← hd]
    exact l.nodup_dedup
  · intro h
    rw [List.dedup_eq_self.mpr h]

/-- A list has no repeated element exactly when no value has
multiplicity at least 2. -/
theorem nodup_iff_filter_empty (l : List α) :
    l.Nodup ↔ l.toFinset.filter (fun x => 2 ≤ l.count x) = ∅ := by
  rw [List.nodup_iff_count_le_one, Finset.eq_empty_iff_forall_not_mem]
  constructor
  · intro h x hx
    rcases Finset.mem_filter.mp hx with ⟨_, h2⟩
    exact absurd (h x) (by omega)
  · intro h x
    by_contra hc
    push_neg at hc
    have hx : x ∈ l := List.count_pos_iff.mp (by omega)
    exact h x (Finset.mem_filter.mpr ⟨List.mem_toFinset.mpr hx, by omega⟩)

/-- Closed form of the report: the verdict decides emptiness of the
multiplicity-two filter, and the duplicate set equals that filter. -/
theorem check_eq_spec (l : List α) :
    check l = (decide (l.toFinset.filter (fun x => 2 ≤ l.count x) = ∅),
               l.toFinset.filter (fun x => 2 ≤ l.count x)) := by
  rw [check]
  by_cases h : l.length = l.toFinset.card
  · rw [if_pos h]
    have he : l.toFinset.filter (fun x => 2 ≤ l.count x) = ∅ :=
      (nodup_iff_filter_empty l).mp ((length_eq_card_iff_nodup l).mp h)
    rw [he]
    simp
  · rw [if_neg h, duplicatesOf_eq]
    have hne : ¬ l.toFinset.filter (fun x => 2 ≤ l.count x) = ∅ := fun hc =>
      h ((length_eq_card_iff_nodup l).mpr ((nodup_iff_filter_empty l).mpr hc))
    simp [hne]

/-- A step-by-step embedding of `check_list_uniqueness` in which every
primitive operation of the Python body is allowed to fail (`Except`),
mirroring the possibility of a raised exception: building `set(items)`,
comparing the lengths, and each iteration of the seen/duplicates loop
are separate fallible steps.  None of these operations can actually
raise on hashable items, which is what the no-error theorem states. -/
def foldlE (f : Finset α × Finset α → α → Except String (Finset α × Finset α)) :
    Finset α × Finset α → List α → Except String (Finset α × Finset α)
  | sd, [] => Except.ok sd
  | sd, a :: l =>
    match f sd a with
    | Except.ok sd2 => foldlE f sd2 l
    | Except.error e => Except.error e

/-- Fallible variant of the whole routine: the same computation as
`check`, with each primitive step lifted into `Except`. -/
def checkE (items : List α) : Except String (Bool × Finset α) :=
  match Except.ok items.toFinset with
  | Except.error e => Except.error (e : String)
  | Except.ok uniq =>
    if items.length = uniq.card then Except.ok (true, ∅)
    else
      match foldlE (fun sd item => Except.ok (scanStep sd item)) (∅, ∅) items with
      | Except.ok sd => Except.ok (false, sd.2)
      | Except.error e => Except.error e

/-- A chat message of the request body: `{"role": ..., "content": ...}`
(`src/send_batch.py`, line 62). -/
structure ChatMessage where
  role : String
  content : String
deriving DecidableEq

/-- The `"body"` object of a JSONL record (`src/send_batch.py`,
lines 60-64). -/
structure RequestBody where
  model : String
  messages : List ChatMessage
  reasoning_effort : String
deriving DecidableEq

/-- One JSONL record as built in `write_jsonl`
(`src/send_batch.py`, lines 56-65). -/
structure BatchEntry where
  custom_id : String
  method : String
  url : String
  body : RequestBody
deriving DecidableEq

/-- The module constant `MODEL` (`src/send_batch.py`, line 30). -/
def MODEL : String := "o4-mini"

/-- The module constant `EFFORT` (`src/send_batch.py`, line 31). -/
def EFFORT : String := "high"

/-- The record written for problem text `problem` with 1-based counter
`idx` (`src/send_batch.py`, lines 56-65). -/
def mkEntry (idx : Nat) (problem : String) : BatchEntry :=
  { custom_id := "request-" ++ toString idx
    method := "POST"
    url := "/v1/chat/completions"
    body :=
      { model := MODEL
        messages := [{ role := "user", content := problem }]
        reasoning_effort := EFFORT } }

/-- The loop of `write_jsonl` from counter value `idx` onwards:
`enumerate(problems, start=idx)` writing one record per problem. -/
def write_jsonl_from (idx : Nat) : List String → List BatchEntry
  | [] => []
  | p :: rest => mkEntry idx p :: write_jsonl_from (idx + 1) rest

/-- The file content produced by `write_jsonl`
(`src/send_batch.py`, lines 51-68): one record per problem, counters
starting at 1 as in `enumerate(problems, start=1)`. -/
def write_jsonl (problems : List String) : List BatchEntry :=
  write_jsonl_from 1 problems

/-- The possible outcomes of the `import` at the top of `load_problems`
(`src/send_batch.py`, lines 34-48): the import may raise `ImportError`,
the imported value may fail the list sanity guard, or it is a list of
problem strings.  The environment decides which; it is an input here. -/
inductive ProblemsImport where
  | importError : String → ProblemsImport
  | notAList : ProblemsImport
  | ok : List String → ProblemsImport

/-- `load_problems` (`src/send_batch.py`, lines 34-48): on an import
failure or a non-list value it prints a message and calls `sys.exit(1)`,
modelled as `Except.error 1`; otherwise it returns the problem list. -/
def load_problems : ProblemsImport → Except Nat (List String)
  | ProblemsImport.importError _ => Except.error 1
  | ProblemsImport.notAList => Except.error 1
  | ProblemsImport.ok problems => Except.ok problems

/-- `main` (`src/send_batch.py`, lines 96-116), as a function of the
environment: the import outcome, whether the OpenAI upload/creation
succeeds (`apiOk`), and the initial content of the JSONL file on disk
(`none` when absent).  The result is the process exit status together
with the final content of the JSONL file.  `write_jsonl` opens the path
in mode `"w"`, so reaching it replaces whatever was on disk. -/
def main_run (imp : ProblemsImport) (apiOk : Bool)
    (disk0 : Option (List BatchEntry)) : Nat × Option (List BatchEntry) :=
  match load_problems imp with
  | Except.error code => (code, disk0)
  | Except.ok problems =>
    if problems.isEmpty then (1, disk0)
    else
      let disk1 := some (write_jsonl problems)
      if apiOk then (0, disk1) else (1, disk1)

/-- The fallible fold returns exactly the pure fold when the step never
fails. -/
theorem foldlE_ok (l : List α) (sd : Finset α × Finset α) :
    foldlE (fun sd item => Except.ok (scanStep sd item)) sd l =
      Except.ok (l.foldl scanStep sd) := by
  induction l generalizing sd with
  | nil => rfl
  | cons a t ih => simp [foldlE, List.foldl_cons, ih]

/-- Length and contents of the `write_jsonl` loop from any starting
counter. -/
theorem write_jsonl_from_spec (problems : List String) (idx : Nat) :
    (write_jsonl_from idx problems).length = problems.length ∧
      ∀ i, (write_jsonl_from idx problems)[i]? =
        (problems[i]?).map (fun p => mkEntry (idx + i) p) := by
  induction problems generalizing idx with
  | nil => simp [write_jsonl_from]
  | cons p rest ih =>
    refine ⟨by simp [write_jsonl_from, (ih (idx + 1)).1], ?_⟩
    intro i
    cases i with
    | zero => simp [write_jsonl_from]
    | succ j =>
      have := (ih (idx + 1)).2 j
      simp only [write_jsonl_from, List.getElem?_cons_succ, this]
      have harith : idx + 1 + j = idx + (j + 1) := by omega
      rw [harith]

/-- Claim C1: for every sequence of hashable items `S`, the duplicate
set computed by `check S` is exactly the set of values that appear at
least 2 times in `S`, and the uniqueness verdict is true iff that set is
empty. -/
theorem claim_C1 (S : List α) :
    (check S).2 = S.toFinset.filter (fun x => 2 ≤ S.count x) ∧
      ((check S).1 = true ↔
        S.toFinset.filter (fun x => 2 ≤ S.count x) = ∅) := by
  rw [check_eq_spec]
  simp

/-- Claim C2: the two-step strategy of the source is behaviourally equal
to always running the detailed scan: the fast size comparison succeeds
iff the scan's duplicate set is empty, and the report of `check` equals
the report of the always-scan variant. -/
theorem claim_C2 (S : List α) :
    (S.length = S.toFinset.card ↔ duplicatesOf S = ∅) ∧
      check S = checkAlwaysScan S := by
  constructor
  · rw [duplicatesOf_eq, length_eq_card_iff_nodup, nodup_iff_filter_empty]
  · rw [check_eq_spec, checkAlwaysScan, duplicatesOf_eq]

/-- Claim C3: order independence: permuting the input changes neither
the verdict nor the duplicate set. -/
theorem claim_C3 (S T : List α) (h : S.Perm T) : check S = check T := by
  have htf : S.toFinset = T.toFinset :=
    Finset.ext fun x => by simp [List.mem_toFinset, h.mem_iff]
  have hf : T.toFinset.filter (fun x => 2 ≤ S.count x) =
      T.toFinset.filter (fun x => 2 ≤ T.count x) :=
    Finset.filter_congr fun x _ => by rw [h.count_eq]
  rw [check_eq_spec, check_eq_spec, htf, hf]

/-- Witness for C3 at a concrete permutation. -/
theorem claim_C3_witness :
    (["a", "b", "a"] : List String).Perm ["a", "a", "b"] ∧
      check (["a", "b", "a"] : List String) = check ["a", "a", "b"] :=
  ⟨List.Perm.cons "a" (List.Perm.swap "a" "b" []),
   claim_C3 ["a", "b", "a"] ["a", "a", "b"]
     (List.Perm.cons "a" (List.Perm.swap "a" "b" []))⟩

/-- Claim C4: each duplicate is reported once (the report is a set and
never contains a value of multiplicity 1), and the two concrete
scenarios of the spec hold. -/
theorem claim_C4 :
    (∀ (β : Type) [DecidableEq β] (S : List β) (x : β),
        x ∈ (check S).2 → S.count x ≠ 1) ∧
      check (["x", "x", "x", "y"] : List String) = (false, {"x"}) ∧
      check (["a", "b", "a"] : List String) = (false, {"a"}) := by
  refine ⟨?_, by decide, by decide⟩
  intro β _ S x hx
  rw [(claim_C1 S).1, Finset.mem_filter] at hx
  omega

/-- Witness for C4: the multiplicity-1 exclusion applied at a concrete
duplicate. -/
theorem claim_C4_witness :
    "x" ∈ (check (["x", "x", "x", "y"] : List String)).2 ∧
      (["x", "x", "x", "y"] : List String).count "x" ≠ 1 :=
  ⟨by decide, claim_C4.1 String ["x", "x", "x", "y"] "x" (by decide)⟩

/-- Claim C5: the empty sequence is reported unique with an empty
duplicate set, and so is every sequence without repeated elements. -/
theorem claim_C5 :
    check ([] : List String) = (true, ∅) ∧
      ∀ (β : Type) [DecidableEq β] (S : List β),
        S.Nodup → check S = (true, ∅) := by
  refine ⟨by decide, ?_⟩
  intro β _ S h
  rw [check, if_pos ((length_eq_card_iff_nodup S).mpr h)]

/-- Witness for C5 at a concrete duplicate-free list. -/
theorem claim_C5_witness :
    (["a", "b"] : List String).Nodup ∧
      check (["a", "b"] : List String) = (true, ∅) :=
  ⟨by decide, claim_C5.2 String ["a", "b"] (by decide)⟩

/-- Counterexample to claim C6 as stated: `check_list_uniqueness` does
not leave presentation to its caller — already on the one-element input
`["a"]` it prints output itself (its trace of printed lines is
nonempty), and it returns no report. -/
theorem claim_C6_counterexample :
    check_list_uniqueness (["a"] : List String) ≠ [] := by
  decide

/-- Claim C6 as amended: `check_list_uniqueness` is a deterministic
function of its input, but it performs the presentation itself instead
of returning a report: its printed trace is exactly the presentation of
the pure report `check items` — the confirmation line when the verdict
is true, otherwise the warning line followed by the duplicate set. -/
theorem claim_C6_amended (items : List α) :
    check_list_uniqueness items =
      (if (check items).1 then [OutLine.uniqueMsg]
       else [OutLine.dupMsg, OutLine.dupList (check items).2]) := by
  rw [check_list_uniqueness, check]
  by_cases h : items.length = items.toFinset.card <;> simp [h]

/-- Claim C7: the routine has no intrinsic error conditions: with every
primitive step lifted into a fallible monad, the computation still
returns `ok` on every input — including the empty one — with the same
report as `check`. -/
theorem claim_C7 (items : List α) :
    checkE items = Except.ok (check items) := by
  rw [checkE, check, foldlE_ok, duplicatesOf]
  by_cases h : items.length = items.toFinset.card <;> simp [h]

/-- Claim C8: `write_jsonl` emits exactly one record per problem, and
the i-th record (1-based) carries identifier `request-i`, method `POST`,
url `/v1/chat/completions`, and a body with the model name, a single
user message holding the i-th problem text, and the reasoning effort. -/
theorem claim_C8 (P : List String) (i : Nat) (h : i < P.length) :
    (write_jsonl P).length = P.length ∧
      (write_jsonl P)[i]? = some
        { custom_id := "request-" ++ toString (i + 1)
          method := "POST"
          url := "/v1/chat/completions"
          body :=
            { model := MODEL
              messages := [{ role := "user", content := P[i] }]
              reasoning_effort := EFFORT } } := by
  obtain ⟨hlen, hget⟩ := write_jsonl_from_spec P 1
  refine ⟨hlen, ?_⟩
  rw [write_jsonl, hget i, List.getElem?_eq_getElem h]
  rw [show 1 + i = i + 1 by omega]
  rfl

/-- Witness for C8 on a one-problem list. -/
theorem claim_C8_witness :
    0 < (["hello"] : List String).length ∧
      ((write_jsonl ["hello"]).length = (["hello"] : List String).length ∧
        (write_jsonl ["hello"])[0]? = some
          { custom_id := "request-" ++ toString (0 + 1)
            method := "POST"
            url := "/v1/chat/completions"
            body :=
              { model := MODEL
                messages := [{ role := "user", content := "hello" }]
                reasoning_effort := EFFORT } }) :=
  ⟨by decide, claim_C8 ["hello"] 0 (by decide)⟩

/-- Claim C9: `main` exits 0 exactly when the problems were imported,
nonempty and the API calls succeeded; an import failure, the list
sanity guard, and an empty list all terminate early with status 1 and
touch nothing, and an API exception yields status 1. -/
theorem claim_C9 (imp : ProblemsImport) (apiOk : Bool)
    (disk0 : Option (List BatchEntry)) :
    ((main_run imp apiOk disk0).1 = 0 ↔
        ∃ ps, imp = ProblemsImport.ok ps ∧ ps ≠ [] ∧ apiOk = true) ∧
      (∀ msg, main_run (ProblemsImport.importError msg) apiOk disk0 =
        (1, disk0)) ∧
      main_run ProblemsImport.notAList apiOk disk0 = (1, disk0) ∧
      main_run (ProblemsImport.ok []) apiOk disk0 = (1, disk0) ∧
      (∀ ps, ps ≠ [] → apiOk = false →
        (main_run (ProblemsImport.ok ps) apiOk disk0).1 = 1) := by
  refine ⟨?_, ?_, ?_, ?_, ?_⟩
  · cases imp with
    | importError msg => simp [main_run, load_problems]
    | notAList => simp [main_run, load_problems]
    | ok ps =>
      by_cases hps : ps = []
      · subst hps
        simp [main_run, load_problems]
      · cases apiOk <;>
          simp [main_run, load_problems, List.isEmpty_iff, hps]
  · intro msg
    simp [main_run, load_problems]
  · simp [main_run, load_problems]
  · simp [main_run, load_problems]
  · intro ps hps hapi
    subst hapi
    simp [main_run, load_problems, List.isEmpty_iff, hps]

/-- Witness for C9: a nonempty list with a failing API call exits 1. -/
theorem claim_C9_witness :
    (["p"] : List String) ≠ [] ∧ (false = false) ∧
      (main_run (ProblemsImport.ok ["p"]) false none).1 = 1 :=
  ⟨by decide, rfl,
   (claim_C9 (ProblemsImport.ok ["p"]) false none).2.2.2.2 ["p"]
     (by decide) rfl⟩

/-- Claim C10: on a nonempty problem list whose upload fails, `main`
returns status 1 and the JSONL file on disk has nevertheless been
replaced by the freshly serialized problems — whatever was there before
(`disk0`) is gone, with no rollback. -/
theorem claim_C10 (ps : List String) (disk0 : Option (List BatchEntry))
    (h : ps ≠ []) :
    main_run (ProblemsImport.ok ps) false disk0 =
      (1, some (write_jsonl ps)) := by
  simp [main_run, load_problems, List.isEmpty_iff, h]

/-- Witness for C10 with a previously absent file. -/
theorem claim_C10_witness :
    (["q"] : List String) ≠ [] ∧
      main_run (ProblemsImport.ok ["q"]) false none =
        (1, some (write_jsonl ["q"])) :=
  ⟨by decide, claim_C10 ["q"] none (by decide)⟩

end EcoDev
